import Mathlib

/-!
Shallow embedding of the QuizMaster server core (src/server/routes.ts and
src/server/storage.ts): the in-memory store, the quiz submission pipeline
(scoring, session creation, statistics aggregation) and the leaderboard
queries, together with theorems settling the specification claims.

JavaScript `Map`s preserve insertion order; they are embedded as lists of
records together with `set`-style update functions that replace the first
entry with a matching key in place and otherwise append at the end, exactly
as `Map.prototype.set` behaves on a map whose keys are unique.  Numbers are
embedded as `Int` (all the values the claims touch are integers), and ids as
`Nat` (they come from auto-incrementing counters starting at 1).
-/

namespace QuizMaster

/-- User record (shared schema `users` table, storage.ts `createUser`).
`createdAt` is omitted: no claim mentions it. -/
structure User where
  id : Nat
  username : String
  email : String
  password : String
  firstName : String
  lastName : String
  role : String
  points : Int
  streak : Int
  badges : List String
deriving Repr, DecidableEq

/-- Theme record (shared schema `themes` table). -/
structure Theme where
  id : Nat
  name : String
  description : String
  icon : String
  color : String
  isActive : Bool
deriving Repr, DecidableEq

/-- Question record (shared schema `questions` table).  `explanation` is
nullable in the source (`string | null`), hence `Option`. -/
structure Question where
  id : Nat
  themeId : Nat
  question : String
  options : List String
  correctAnswer : Int
  difficulty : String
  explanation : Option String
deriving Repr, DecidableEq

/-- A question as returned to non-admin callers of
GET /api/themes/:themeId/questions: the destructuring
`const { correctAnswer, explanation, ...questionWithoutAnswer } = q` in
routes.ts removes exactly the `correctAnswer` and `explanation` fields, so
the stripped record type has no such fields at all. -/
structure StrippedQuestion where
  id : Nat
  themeId : Nat
  question : String
  options : List String
  difficulty : String
deriving Repr, DecidableEq

/-- Quiz session record (shared schema `quizSessions` table).  `completedAt`
is omitted: no claim mentions it. -/
structure QuizSession where
  id : Nat
  userId : Nat
  themeId : Nat
  score : Int
  totalQuestions : Nat
  timeSpent : Int
deriving Repr, DecidableEq

/-- Per-(user, theme) aggregate row (shared schema `userStats` table). -/
structure UserStats where
  id : Nat
  userId : Nat
  themeId : Nat
  totalQuizzes : Nat
  bestScore : Int
  averageScore : Int
  totalTimeSpent : Int
deriving Repr, DecidableEq

/-- The in-memory store `MemStorage` (storage.ts): one `Map` per entity
plus the auto-increment counters. -/
structure Store where
  users : List User
  themes : List Theme
  questions : List Question
  quizSessions : List QuizSession
  userStats : List UserStats
  currentUserId : Nat
  currentThemeId : Nat
  currentQuestionId : Nat
  currentQuizSessionId : Nat
  currentUserStatsId : Nat
deriving Repr

/-- JavaScript `Math.round (t / m)` for integers `t` and positive `m`:
rounds the exact rational `t / m` to the nearest integer, halves toward
positive infinity, i.e. `⌊t / m + 1 / 2⌋`. -/
def jsRound (t m : Int) : Int := Int.fdiv (2 * t + m) (2 * m)

/-- storage.ts `getUser`: `this.users.get(id)` (keys of the `users` map are
always the stored user's `id`). -/
def getUser (s : Store) (id : Nat) : Option User :=
  s.users.find? (fun u => u.id == id)

/-- storage.ts `getTheme`: `this.themes.get(id)`. -/
def getTheme (s : Store) (id : Nat) : Option Theme :=
  s.themes.find? (fun t => t.id == id)

/-- storage.ts `getQuestionsByTheme`: filter all questions on `themeId`. -/
def getQuestionsByTheme (s : Store) (themeId : Nat) : List Question :=
  s.questions.filter (fun q => q.themeId == themeId)

/-- Lookup in the `userStats` map, which is keyed by the string
`userId-themeId` (injective in the pair for natural numbers). -/
def findStat (stats : List UserStats) (userId themeId : Nat) : Option UserStats :=
  stats.find? (fun st => st.userId == userId && st.themeId == themeId)

/-- `Map.prototype.set` on the `userStats` map: replace the first (only)
entry carrying the new record's key in place, else append. -/
def setStat : List UserStats → UserStats → List UserStats
  | [], st => [st]
  | st0 :: rest, st =>
      if st0.userId == st.userId && st0.themeId == st.themeId then st :: rest
      else st0 :: setStat rest st

/-- `Map.prototype.set` on the `quizSessions` map (keyed by session id). -/
def setSession : List QuizSession → QuizSession → List QuizSession
  | [], sess => [sess]
  | s0 :: rest, sess =>
      if s0.id == sess.id then sess :: rest
      else s0 :: setSession rest sess

/-- The `Partial<UserStats>` update object passed to storage.ts
`updateUserStats`; both call sites (the two branches of
`updateUserStatsAfterQuiz`) pass exactly these four fields. -/
structure StatsUpdate where
  totalQuizzes : Nat
  bestScore : Int
  averageScore : Int
  totalTimeSpent : Int
deriving Repr, DecidableEq

/-- storage.ts `updateUserStats`: merge the update into the existing row
when the key is present, otherwise create a fresh row (consuming one
`currentUserStatsId`), and `set` the result back into the map. -/
def updateUserStats (s : Store) (userId themeId : Nat) (upd : StatsUpdate) : Store :=
  match findStat s.userStats userId themeId with
  | some existing =>
      let merged : UserStats :=
        { existing with
          totalQuizzes := upd.totalQuizzes
          bestScore := upd.bestScore
          averageScore := upd.averageScore
          totalTimeSpent := upd.totalTimeSpent }
      { s with userStats := setStat s.userStats merged }
  | none =>
      let fresh : UserStats :=
        { id := s.currentUserStatsId
          userId := userId
          themeId := themeId
          totalQuizzes := upd.totalQuizzes
          bestScore := upd.bestScore
          averageScore := upd.averageScore
          totalTimeSpent := upd.totalTimeSpent }
      { s with
        userStats := setStat s.userStats fresh
        currentUserStatsId := s.currentUserStatsId + 1 }

/-- storage.ts `updateUserStatsAfterQuiz`: fold one completed session into
the (userId, themeId) aggregate row.  The new average is
`Math.round(((existing.averageScore * existing.totalQuizzes) + session.score)
/ newTotalQuizzes)` computed from the previously rounded average. -/
def updateUserStatsAfterQuiz (s : Store) (sess : QuizSession) : Store :=
  match findStat s.userStats sess.userId sess.themeId with
  | some existing =>
      let newTotalQuizzes := existing.totalQuizzes + 1
      let newTotalTimeSpent := existing.totalTimeSpent + sess.timeSpent
      let newAverageScore :=
        jsRound (existing.averageScore * (existing.totalQuizzes : Int) + sess.score)
          (newTotalQuizzes : Int)
      let newBestScore := max existing.bestScore sess.score
      updateUserStats s sess.userId sess.themeId
        ⟨newTotalQuizzes, newBestScore, newAverageScore, newTotalTimeSpent⟩
  | none =>
      updateUserStats s sess.userId sess.themeId
        ⟨1, sess.score, sess.score, sess.timeSpent⟩

/-- The `InsertQuizSession` payload of storage.ts `createQuizSession`. -/
structure InsertQuizSession where
  userId : Nat
  themeId : Nat
  score : Int
  totalQuestions : Nat
  timeSpent : Int
deriving Repr, DecidableEq

/-- storage.ts `createQuizSession`: mint a fresh session id, store the
session, then run `updateUserStatsAfterQuiz`; returns the new store and the
created session. -/
def createQuizSession (s : Store) (ins : InsertQuizSession) : Store × QuizSession :=
  let sess : QuizSession :=
    { id := s.currentQuizSessionId
      userId := ins.userId
      themeId := ins.themeId
      score := ins.score
      totalQuestions := ins.totalQuestions
      timeSpent := ins.timeSpent }
  let s1 := { s with
    quizSessions := setSession s.quizSessions sess
    currentQuizSessionId := s.currentQuizSessionId + 1 }
  (updateUserStatsAfterQuiz s1 sess, sess)

/-- routes.ts POST /api/quiz/submit, per-question answer extraction:
`typeof answers[question.id] === "number" ? answers[question.id] : -1`.
The answers object is embedded as `Nat → Option Int`, where `none` covers
both a missing entry and a present non-number value (both fail the
`typeof` test identically). -/
def answerFor (answers : Nat → Option Int) (questionId : Nat) : Int :=
  match answers questionId with
  | some n => n
  | none => -1

/-- One element of the `results` array built by POST /api/quiz/submit. -/
structure QuizResult where
  questionId : Nat
  correct : Bool
  correctAnswer : Int
deriving Repr, DecidableEq

/-- The score accumulated by the `questions.forEach` loop of
POST /api/quiz/submit: the number of questions whose extracted answer is
strictly equal (`===`) to the question's `correctAnswer`. -/
def computeScore (questions : List Question) (answers : Nat → Option Int) : Nat :=
  questions.countP (fun q => answerFor answers q.id == q.correctAnswer)

/-- The `results` array built by the same loop. -/
def computeResults (questions : List Question) (answers : Nat → Option Int) :
    List QuizResult :=
  questions.map (fun q =>
    { questionId := q.id
      correct := answerFor answers q.id == q.correctAnswer
      correctAnswer := q.correctAnswer })

/-- The JSON body returned by a successful POST /api/quiz/submit. -/
structure SubmitResponse where
  session : QuizSession
  score : Nat
  totalQuestions : Nat
  results : List QuizResult
deriving Repr, DecidableEq

/-- The successful path of routes.ts POST /api/quiz/submit (after the
session-auth guard and the body-shape guard): fetch the theme's questions,
score the answers, create the session (which also updates the stats), and
return the response payload. -/
def submitQuiz (s : Store) (userId themeId : Nat) (answers : Nat → Option Int)
    (timeSpent : Int) : Store × SubmitResponse :=
  let questions := getQuestionsByTheme s themeId
  let score := computeScore questions answers
  let results := computeResults questions answers
  let created := createQuizSession s
    { userId := userId
      themeId := themeId
      score := (score : Int)
      totalQuestions := questions.length
      timeSpent := timeSpent }
  (created.1,
   { session := created.2
     score := score
     totalQuestions := questions.length
     results := results })

/-- Outcome of POST /api/quiz/submit for an authenticated caller: the
handler either rejects the body with 400 or answers 200 with the payload.
There is no 404 path in the handler. -/
inductive SubmitOutcome
  | validationError
  | ok (resp : SubmitResponse)
deriving Repr, DecidableEq

/-- routes.ts POST /api/quiz/submit for an authenticated caller, including
the body guard `if (!themeId || !answers || typeof timeSpent !== "number")`.
`themeId = 0` is the falsy numeric themeId; `answersProvided` and
`timeSpentIsNumber` carry the truthiness of the other two checks. -/
def submitRoute (s : Store) (userId themeId : Nat) (answersProvided : Bool)
    (answers : Nat → Option Int) (timeSpentIsNumber : Bool) (timeSpent : Int) :
    Store × SubmitOutcome :=
  if themeId == 0 || !answersProvided || !timeSpentIsNumber then
    (s, SubmitOutcome.validationError)
  else
    let pr := submitQuiz s userId themeId answers timeSpent
    (pr.1, SubmitOutcome.ok pr.2)

/-- The non-admin projection applied by GET /api/themes/:themeId/questions. -/
def stripQuestion (q : Question) : StrippedQuestion :=
  { id := q.id
    themeId := q.themeId
    question := q.question
    options := q.options
    difficulty := q.difficulty }

/-- Outcome of GET /api/themes/:themeId/questions for an authenticated
caller with a well-formed numeric themeId: 404 happens only when the
session's user record is missing; otherwise the (full or stripped)
question list is returned with 200. -/
inductive QuestionsOutcome
  | notFound
  | okFull (questions : List Question)
  | okStripped (questions : List StrippedQuestion)
deriving Repr, DecidableEq

/-- routes.ts GET /api/themes/:themeId/questions for an authenticated
caller: fetch the questions for the themeId, load the caller's user record
(404 when absent), and strip `correctAnswer`/`explanation` unless the
caller is an admin.  The handler performs no lookup of the theme itself. -/
def getThemeQuestionsRoute (s : Store) (userId themeId : Nat) : QuestionsOutcome :=
  let questions := getQuestionsByTheme s themeId
  match getUser s userId with
  | none => QuestionsOutcome.notFound
  | some user =>
      if user.role == "admin" then QuestionsOutcome.okFull questions
      else QuestionsOutcome.okStripped (questions.map stripQuestion)

/-- One entry of the global leaderboard: `{ ...user, totalScore }`. -/
structure GlobalEntry where
  user : User
  totalScore : Int
deriving Repr, DecidableEq

/-- storage.ts `getGlobalLeaderboard`: for every user, sum the `score`
field over that user's sessions, then sort descending by the comparator
`(a, b) => b.totalScore - a.totalScore` (a stable descending sort). -/
def getGlobalLeaderboard (s : Store) : List GlobalEntry :=
  (s.users.map (fun u =>
      { user := u
        totalScore := ((s.quizSessions.filter (fun sess => sess.userId == u.id)).map
            (fun sess => sess.score)).sum })).mergeSort
    (fun a b => b.totalScore ≤ a.totalScore)

/-- One entry of the per-theme leaderboard: `{ ...user, bestScore }`. -/
structure ThemeEntry where
  user : User
  bestScore : Int
deriving Repr, DecidableEq

/-- `themeUsersBestScores.get(user.id)` on the accumulator map. -/
def lookupBest (acc : List ThemeEntry) (userId : Nat) : Option ThemeEntry :=
  acc.find? (fun e => e.user.id == userId)

/-- `Map.prototype.set` on the accumulator map (keyed by `user.id`). -/
def setBest : List ThemeEntry → ThemeEntry → List ThemeEntry
  | [], e => [e]
  | e0 :: rest, e =>
      if e0.user.id == e.user.id then e :: rest
      else e0 :: setBest rest e

/-- The body of the `for (const session of ...)` loop of storage.ts
`getThemeLeaderboard`, for one session: sessions of other themes are
skipped, sessions whose user is missing from the store are skipped, and a
session beats the recorded entry only when its score is strictly larger. -/
def themeBestStep (users : List User) (themeId : Nat) (acc : List ThemeEntry)
    (sess : QuizSession) : List ThemeEntry :=
  if sess.themeId == themeId then
    match users.find? (fun u => u.id == sess.userId) with
    | some user =>
        match lookupBest acc user.id with
        | some cur =>
            if cur.bestScore < sess.score then
              setBest acc { user := user, bestScore := sess.score }
            else acc
        | none => setBest acc { user := user, bestScore := sess.score }
    | none => acc
  else acc

/-- The full loop of storage.ts `getThemeLeaderboard`. -/
def themeBestFold (users : List User) (themeId : Nat) :
    List QuizSession → List ThemeEntry → List ThemeEntry
  | [], acc => acc
  | sess :: rest, acc => themeBestFold users themeId rest (themeBestStep users themeId acc sess)

/-- storage.ts `getThemeLeaderboard`: run the loop over all sessions and
sort the accumulated entries descending by `bestScore`. -/
def getThemeLeaderboard (s : Store) (themeId : Nat) : List ThemeEntry :=
  (themeBestFold s.users themeId s.quizSessions []).mergeSort
    (fun a b => b.bestScore ≤ a.bestScore)

/-- Loop invariant of storage.ts `getThemeLeaderboard` after processing the
session prefix `pre`: the accumulator holds exactly one entry per stored
user having a qualifying session in `pre`, carrying that user's maximum
qualifying score, with pairwise distinct user ids. -/
def ThemeAccInv (users : List User) (themeId : Nat) (pre : List QuizSession)
    (acc : List ThemeEntry) : Prop :=
  (∀ k, (∃ u ∈ users, u.id = k) →
      ((∃ sess ∈ pre, sess.themeId = themeId ∧ sess.userId = k)
        ↔ ∃ e ∈ acc, e.user.id = k))
  ∧ (∀ e ∈ acc,
      (∃ u ∈ users, u.id = e.user.id)
      ∧ (∃ sess ∈ pre, sess.themeId = themeId ∧ sess.userId = e.user.id
          ∧ sess.score = e.bestScore)
      ∧ (∀ sess ∈ pre, sess.themeId = themeId → sess.userId = e.user.id →
          sess.score ≤ e.bestScore))
  ∧ (acc.map (fun e => e.user.id)).Nodup

/-! Concrete sample data used by witnesses and counterexamples. -/

/-- A user record with the given id, role and points (remaining fields are
irrelevant placeholder profile data). -/
def mkUser (id : Nat) (role : String) (points : Int) : User :=
  { id := id
    username := "u"
    email := "e"
    password := "p"
    firstName := "f"
    lastName := "l"
    role := role
    points := points
    streak := 0
    badges := [] }

/-- A theme record with the given id and activity flag. -/
def mkTheme (id : Nat) (isActive : Bool) : Theme :=
  { id := id
    name := "t"
    description := "d"
    icon := "i"
    color := "c"
    isActive := isActive }

/-- A question record with the given id, theme and correct-answer index. -/
def mkQuestion (id themeId : Nat) (correctAnswer : Int) : Question :=
  { id := id
    themeId := themeId
    question := "q"
    options := ["a", "b", "c", "d"]
    correctAnswer := correctAnswer
    difficulty := "easy"
    explanation := none }

/-- The store as constructed (minus seed data): empty maps, counters at 1. -/
def emptyStore : Store :=
  { users := []
    themes := []
    questions := []
    quizSessions := []
    userStats := []
    currentUserId := 1
    currentThemeId := 1
    currentQuestionId := 1
    currentQuizSessionId := 1
    currentUserStatsId := 1 }

/-- Store for the C1 witness: one user, one active theme with two questions
whose correct answers are 1 and 2 (the spec's example scenario). -/
def c1Store : Store :=
  { emptyStore with
    users := [mkUser 1 "user" 0]
    themes := [mkTheme 1 true]
    questions := [mkQuestion 1 1 1, mkQuestion 2 1 2]
    currentUserId := 2
    currentThemeId := 2
    currentQuestionId := 3 }

/-- Answers map for the C1 witness: {q1 ↦ 1, q2 ↦ 0}. -/
def c1Answers : Nat → Option Int :=
  fun qid => if qid == 1 then some 1 else if qid == 2 then some 0 else none

/-- Store for the C2 witness: no stats row yet for (1, 1). -/
def c2Store : Store := emptyStore

/-- First C2 session: score 10, 20 seconds. -/
def c2Sess10 : QuizSession :=
  { id := 1, userId := 1, themeId := 1, score := 10, totalQuestions := 10, timeSpent := 20 }

/-- Second C2 session: score 5, 30 seconds. -/
def c2Sess5 : QuizSession :=
  { id := 2, userId := 1, themeId := 1, score := 5, totalQuestions := 10, timeSpent := 30 }

/-- Store for the C8 witness: an existing (1, 1) row with bestScore 10. -/
def c8Store : Store :=
  { emptyStore with
    userStats := [{ id := 1, userId := 1, themeId := 1, totalQuizzes := 1, bestScore := 10,
                    averageScore := 10, totalTimeSpent := 20 }]
    currentUserStatsId := 2 }

/-- Store for C3: one user with 0 points and one one-question theme whose
correct answer is index 0. -/
def c3Store : Store :=
  { emptyStore with
    users := [mkUser 1 "user" 0]
    themes := [mkTheme 1 true]
    questions := [mkQuestion 1 1 0]
    currentUserId := 2
    currentThemeId := 2
    currentQuestionId := 2 }

/-- Answers map for C3: the single question answered correctly (q1 ↦ 0). -/
def c3Answers : Nat → Option Int :=
  fun qid => if qid == 1 then some 0 else none

/-- Store for the C4 counterexample: a non-admin user and an INACTIVE theme
that still has one question. -/
def c4Store : Store :=
  { emptyStore with
    users := [mkUser 1 "user" 0]
    themes := [mkTheme 1 false]
    questions := [mkQuestion 1 1 0]
    currentUserId := 2
    currentThemeId := 2
    currentQuestionId := 2 }

/-- Store for the C5 witness: a non-admin user (id 1) and an admin (id 2)
with one active one-question theme. -/
def c5Store : Store :=
  { emptyStore with
    users := [mkUser 1 "user" 0, mkUser 2 "admin" 0]
    themes := [mkTheme 1 true]
    questions := [mkQuestion 1 1 2]
    currentUserId := 3
    currentThemeId := 2
    currentQuestionId := 2 }

/-- Store for the C6 witness: two users; user 1 has sessions scoring 1 and
2, user 2 has one session scoring 7. -/
def c6Store : Store :=
  { emptyStore with
    users := [mkUser 1 "user" 0, mkUser 2 "user" 50]
    themes := [mkTheme 1 true]
    quizSessions :=
      [{ id := 1, userId := 1, themeId := 1, score := 1, totalQuestions := 4, timeSpent := 10 },
       { id := 2, userId := 1, themeId := 1, score := 2, totalQuestions := 4, timeSpent := 10 },
       { id := 3, userId := 2, themeId := 1, score := 7, totalQuestions := 8, timeSpent := 10 }]
    currentUserId := 3
    currentThemeId := 2
    currentQuizSessionId := 4 }

/-- The leaderboard entry of user 2 in `c6Store`: summed session score 7. -/
def c6Entry : GlobalEntry :=
  { user := mkUser 2 "user" 50, totalScore := 7 }

/-- Store for the C7 witness: users 1 and 2 have sessions in theme 1 (user
1 scoring 3 then 5, user 2 scoring 4); user 3 only has a theme-2 session. -/
def c7Store : Store :=
  { emptyStore with
    users := [mkUser 1 "user" 0, mkUser 2 "user" 0, mkUser 3 "user" 0]
    themes := [mkTheme 1 true, mkTheme 2 true]
    quizSessions :=
      [{ id := 1, userId := 1, themeId := 1, score := 3, totalQuestions := 8, timeSpent := 10 },
       { id := 2, userId := 2, themeId := 1, score := 4, totalQuestions := 8, timeSpent := 10 },
       { id := 3, userId := 1, themeId := 1, score := 5, totalQuestions := 8, timeSpent := 10 },
       { id := 4, userId := 3, themeId := 2, score := 9, totalQuestions := 9, timeSpent := 10 }]
    currentUserId := 4
    currentThemeId := 3
    currentQuizSessionId := 5 }

/-- Store for the C10 witness: a user and theme, one earlier session (id 1)
and one stats row of a DIFFERENT (user, theme) pair, to exercise the frame
condition. -/
def c10Store : Store :=
  { emptyStore with
    users := [mkUser 1 "user" 0, mkUser 2 "user" 9]
    themes := [mkTheme 1 true]
    questions := [mkQuestion 1 1 0]
    quizSessions :=
      [{ id := 1, userId := 2, themeId := 1, score := 1, totalQuestions := 1, timeSpent := 5 }]
    userStats := [{ id := 1, userId := 2, themeId := 1, totalQuizzes := 1, bestScore := 1,
                    averageScore := 1, totalTimeSpent := 5 }]
    currentUserId := 3
    currentThemeId := 2
    currentQuestionId := 2
    currentQuizSessionId := 2
    currentUserStatsId := 2 }

/-! Helper lemmas about the scoring loop. -/

lemma computeScore_eq_countP (questions : List Question) (answers : Nat → Option Int)
    (hvalid : ∀ q ∈ questions, 0 ≤ q.correctAnswer) :
    computeScore questions answers
      = questions.countP (fun q => answers q.id == some q.correctAnswer) := by
  unfold computeScore
  apply List.countP_congr
  intro q hq
  have h0 := hvalid q hq
  cases h : answers q.id with
  | none =>
      simp only [answerFor, h]
      constructor
      · intro hbeq
        have : (-1 : Int) = q.correctAnswer := by
          exact eq_of_beq hbeq
        omega
      · intro hbeq
        simp at hbeq
  | some n =>
      simp only [answerFor, h]
      simp [beq_iff_eq]

lemma computeScore_le_length (questions : List Question) (answers : Nat → Option Int) :
    computeScore questions answers ≤ questions.length :=
  List.countP_le_length _

lemma computeScore_empty_answers (questions : List Question)
    (hvalid : ∀ q ∈ questions, 0 ≤ q.correctAnswer)
    (answers : Nat → Option Int) (hempty : ∀ qid, answers qid = none) :
    computeScore questions answers = 0 := by
  unfold computeScore
  rw [List.countP_eq_zero]
  intro q hq
  have h0 := hvalid q hq
  simp only [answerFor, hempty q.id]
  intro hbeq
  have : (-1 : Int) = q.correctAnswer := eq_of_beq hbeq
  omega

/-- Claim C1: the score returned (and recorded in the session) by
POST /api/quiz/submit equals the number of the theme's questions whose
submitted answer (from the possibly sparse answers map, with missing or
non-number entries treated as absent) equals the question's
`correctAnswer`; it is bounded by `totalQuestions`, and an empty answers
map yields score 0.  The hypothesis is the data-model invariant that every
`correctAnswer` is a valid (non-negative) index. -/
theorem submit_score_spec (s : Store) (userId themeId : Nat)
    (answers : Nat → Option Int) (timeSpent : Int)
    (hvalid : ∀ q ∈ getQuestionsByTheme s themeId, 0 ≤ q.correctAnswer) :
    (submitQuiz s userId themeId answers timeSpent).2.score
        = (getQuestionsByTheme s themeId).countP
            (fun q => answers q.id == some q.correctAnswer)
    ∧ (submitQuiz s userId themeId answers timeSpent).2.session.score
        = ((submitQuiz s userId themeId answers timeSpent).2.score : Int)
    ∧ (submitQuiz s userId themeId answers timeSpent).2.score
        ≤ (submitQuiz s userId themeId answers timeSpent).2.totalQuestions
    ∧ ((∀ qid, answers qid = none) →
        (submitQuiz s userId themeId answers timeSpent).2.score = 0) := by
  refine ⟨?_, ?_, ?_, ?_⟩
  · simpa [submitQuiz] using computeScore_eq_countP _ answers hvalid
  · simp [submitQuiz, createQuizSession]
  · simpa [submitQuiz] using
      computeScore_le_length (getQuestionsByTheme s themeId) answers
  · intro hempty
    simpa [submitQuiz] using
      computeScore_empty_answers (getQuestionsByTheme s themeId) hvalid answers hempty

/-- Concrete witness for C1: a store with one theme of two questions with
correct answers 1 and 2, submitted answers {1 ↦ 1, 2 ↦ 0} (the spec's own
example scenario), giving score 1 of 2; the empty answers map gives 0. -/
theorem submit_score_spec_witness :
    (submitQuiz c1Store 1 1 c1Answers 30).2.score
        = (getQuestionsByTheme c1Store 1).countP
            (fun q => c1Answers q.id == some q.correctAnswer)
    ∧ (submitQuiz c1Store 1 1 c1Answers 30).2.score = 1
    ∧ (submitQuiz c1Store 1 1 c1Answers 30).2.score
        ≤ (submitQuiz c1Store 1 1 c1Answers 30).2.totalQuestions
    ∧ (submitQuiz c1Store 1 1 (fun _ => none) 30).2.score = 0 := by
  have h1 := submit_score_spec c1Store 1 1 c1Answers 30 (by decide)
  have h2 := submit_score_spec c1Store 1 1 (fun _ => none) 30 (by decide)
  exact ⟨h1.1, rfl, h1.2.2.1, h2.2.2.2 (fun _ => rfl)⟩

/-! Helper lemmas about the userStats map. -/

lemma setStat_findStat_self (stats : List UserStats) (st : UserStats) :
    findStat (setStat stats st) st.userId st.themeId = some st := by
  induction stats with
  | nil => simp [setStat, findStat, List.find?]
  | cons st0 rest ih =>
      by_cases h : (st0.userId == st.userId && st0.themeId == st.themeId) = true
      · simp [setStat, h, findStat, List.find?]
      · simp only [setStat, h, if_false, Bool.if_false_right]
        simpa [findStat, List.find?, h] using ih

lemma updateUserStats_row (s : Store) (userId themeId : Nat) (upd : StatsUpdate) :
    ∃ row, findStat (updateUserStats s userId themeId upd).userStats userId themeId = some row
      ∧ row.totalQuizzes = upd.totalQuizzes
      ∧ row.bestScore = upd.bestScore
      ∧ row.averageScore = upd.averageScore
      ∧ row.totalTimeSpent = upd.totalTimeSpent := by
  cases hfind : findStat s.userStats userId themeId with
  | none =>
      refine ⟨{ id := s.currentUserStatsId, userId := userId, themeId := themeId,
                totalQuizzes := upd.totalQuizzes, bestScore := upd.bestScore,
                averageScore := upd.averageScore, totalTimeSpent := upd.totalTimeSpent },
        ?_, rfl, rfl, rfl, rfl⟩
      have hself := setStat_findStat_self s.userStats
        { id := s.currentUserStatsId, userId := userId, themeId := themeId,
          totalQuizzes := upd.totalQuizzes, bestScore := upd.bestScore,
          averageScore := upd.averageScore, totalTimeSpent := upd.totalTimeSpent }
      simp only [updateUserStats, hfind]
      exact hself
  | some existing =>
      have hpred := List.find?_some hfind
      simp only [Bool.and_eq_true, beq_iff_eq] at hpred
      refine ⟨{ existing with
                totalQuizzes := upd.totalQuizzes, bestScore := upd.bestScore,
                averageScore := upd.averageScore, totalTimeSpent := upd.totalTimeSpent },
        ?_, rfl, rfl, rfl, rfl⟩
      have hself := setStat_findStat_self s.userStats
        { existing with
          totalQuizzes := upd.totalQuizzes, bestScore := upd.bestScore,
          averageScore := upd.averageScore, totalTimeSpent := upd.totalTimeSpent }
      simp only [updateUserStats, hfind]
      simpa [hpred.1, hpred.2] using hself

/-- Claim C2: the statistics fold of storage.ts `updateUserStatsAfterQuiz`.
With no prior row the new row is (1, S, S, T); with a prior row the counters
increment, bestScore takes the max, time accumulates, and the new average is
`Math.round` of `(prior.averageScore * prior.totalQuizzes + S) / (prior.totalQuizzes + 1)`,
i.e. it is recomputed from the previous rounded average. -/
theorem updateUserStatsAfterQuiz_spec (s : Store) (sess : QuizSession) :
    (findStat s.userStats sess.userId sess.themeId = none →
      ∃ row, findStat (updateUserStatsAfterQuiz s sess).userStats sess.userId sess.themeId
          = some row
        ∧ row.totalQuizzes = 1
        ∧ row.bestScore = sess.score
        ∧ row.averageScore = sess.score
        ∧ row.totalTimeSpent = sess.timeSpent)
    ∧ (∀ prior, findStat s.userStats sess.userId sess.themeId = some prior →
      ∃ row, findStat (updateUserStatsAfterQuiz s sess).userStats sess.userId sess.themeId
          = some row
        ∧ row.totalQuizzes = prior.totalQuizzes + 1
        ∧ row.bestScore = max prior.bestScore sess.score
        ∧ row.averageScore
            = jsRound (prior.averageScore * (prior.totalQuizzes : Int) + sess.score)
                ((prior.totalQuizzes : Int) + 1)
        ∧ row.totalTimeSpent = prior.totalTimeSpent + sess.timeSpent) := by
  constructor
  · intro hnone
    obtain ⟨row, hfind, hq, hb, ha, ht⟩ := updateUserStats_row s sess.userId sess.themeId
      ⟨1, sess.score, sess.score, sess.timeSpent⟩
    refine ⟨row, ?_, hq, hb, ha, ht⟩
    simp only [updateUserStatsAfterQuiz, hnone]
    exact hfind
  · intro prior hprior
    obtain ⟨row, hfind, hq, hb, ha, ht⟩ := updateUserStats_row s sess.userId sess.themeId
      ⟨prior.totalQuizzes + 1, max prior.bestScore sess.score,
        jsRound (prior.averageScore * (prior.totalQuizzes : Int) + sess.score)
          ((prior.totalQuizzes : Int) + 1),
        prior.totalTimeSpent + sess.timeSpent⟩
    refine ⟨row, ?_, hq, hb, ha, ht⟩
    simp only [updateUserStatsAfterQuiz, hprior, Nat.cast_add, Nat.cast_one]
    exact hfind

/-- Witness for C2, realising the spec's [10, 5] scenario: starting from no
row, a session with score 10 produces the row (1, 10, 10, 20); folding a
second session with score 5 into that store yields averageScore
round(15 / 2) = 8, totalQuizzes 2, bestScore 10. -/
theorem updateUserStatsAfterQuiz_spec_witness :
    (∃ row, findStat (updateUserStatsAfterQuiz c2Store c2Sess10).userStats 1 1 = some row
      ∧ row.totalQuizzes = 1 ∧ row.bestScore = 10 ∧ row.averageScore = 10
      ∧ row.totalTimeSpent = 20)
    ∧ (∃ row,
        findStat (updateUserStatsAfterQuiz (updateUserStatsAfterQuiz c2Store c2Sess10)
            c2Sess5).userStats 1 1 = some row
      ∧ row.totalQuizzes = 2 ∧ row.bestScore = 10 ∧ row.averageScore = 8
      ∧ row.totalTimeSpent = 50) := by
  constructor
  · exact (updateUserStatsAfterQuiz_spec c2Store c2Sess10).1 rfl
  · obtain ⟨row, hfind, hq, hb, ha, ht⟩ :=
      (updateUserStatsAfterQuiz_spec (updateUserStatsAfterQuiz c2Store c2Sess10) c2Sess5).2
        { id := 1, userId := 1, themeId := 1, totalQuizzes := 1, bestScore := 10,
          averageScore := 10, totalTimeSpent := 20 } rfl
    exact ⟨row, hfind, hq, hb, by rw [ha]; rfl, ht⟩

/-- Claim C8: `bestScore` is monotonically non-decreasing — after folding
any session into an existing (user, theme) row, the stored bestScore is at
least the prior bestScore. -/
theorem bestScore_monotone (s : Store) (sess : QuizSession) (prior : UserStats)
    (hprior : findStat s.userStats sess.userId sess.themeId = some prior) :
    ∃ row, findStat (updateUserStatsAfterQuiz s sess).userStats sess.userId sess.themeId
        = some row
      ∧ prior.bestScore ≤ row.bestScore := by
  obtain ⟨row, hfind, _, hb, _, _⟩ := updateUserStats_row s sess.userId sess.themeId
    ⟨prior.totalQuizzes + 1, max prior.bestScore sess.score,
      jsRound (prior.averageScore * (prior.totalQuizzes : Int) + sess.score)
        ((prior.totalQuizzes : Int) + 1),
      prior.totalTimeSpent + sess.timeSpent⟩
  refine ⟨row, ?_, by rw [hb]; exact le_max_left _ _⟩
  simp only [updateUserStatsAfterQuiz, hprior, Nat.cast_add, Nat.cast_one]
  exact hfind

/-- Witness for C8: folding a score-5 session into a row whose bestScore is
10 keeps bestScore at least 10. -/
theorem bestScore_monotone_witness :
    ∃ row, findStat (updateUserStatsAfterQuiz c8Store c2Sess5).userStats 1 1 = some row
      ∧ (10 : Int) ≤ row.bestScore := by
  obtain ⟨row, hfind, hle⟩ := bestScore_monotone c8Store c2Sess5
    { id := 1, userId := 1, themeId := 1, totalQuizzes := 1, bestScore := 10,
      averageScore := 10, totalTimeSpent := 20 } rfl
  exact ⟨row, hfind, hle⟩

/-- Claim C3 is violated by the code: the POST /api/quiz/submit pipeline
(routes.ts scoring loop, `createQuizSession`, `updateUserStatsAfterQuiz`)
never writes to the users map, so no points are credited anywhere.  Here a
submission scores 1 — the spec demands the user's points to rise by 10 —
yet the submitting user's record still has 0 points afterwards. -/
theorem points_not_awarded_on_submit :
    (submitQuiz c3Store 1 1 c3Answers 10).2.score = 1
    ∧ (submitQuiz c3Store 1 1 c3Answers 10).1.users = c3Store.users
    ∧ (getUser (submitQuiz c3Store 1 1 c3Answers 10).1 1).map User.points = some 0 :=
  ⟨rfl, rfl, rfl⟩

/-- Counterexample to claim C4: in `c4Store` theme 1 exists but is inactive
(isActive = false), yet GET /api/themes/:themeId/questions answers 200 with
the stripped question list, not NotFound — the handler never looks the
theme up. -/
theorem theme_questions_no_notFound_cex :
    (getTheme c4Store 1).map Theme.isActive = some false
    ∧ getThemeQuestionsRoute c4Store 1 1
        = QuestionsOutcome.okStripped [stripQuestion (mkQuestion 1 1 0)]
    ∧ getThemeQuestionsRoute c4Store 1 1 ≠ QuestionsOutcome.notFound :=
  ⟨rfl, rfl, by decide⟩

/-- Amended claim C4: GET /api/themes/:themeId/questions performs no theme
check at all — the outcome is NotFound exactly when the calling user's
record is missing, and is entirely independent of the theme table (hence of
theme existence and of the isActive flag). -/
theorem theme_questions_route_spec (s : Store) (userId themeId : Nat) :
    (getThemeQuestionsRoute s userId themeId = QuestionsOutcome.notFound
      ↔ getUser s userId = none)
    ∧ (∀ themes2 : List Theme,
        getThemeQuestionsRoute { s with themes := themes2 } userId themeId
          = getThemeQuestionsRoute s userId themeId) := by
  constructor
  · unfold getThemeQuestionsRoute
    cases h : getUser s userId with
    | none => simp [h]
    | some user => by_cases hr : (user.role == "admin") = true <;> simp [h, hr]
  · intro themes2
    rfl

/-- Claim C5: for a caller whose role is not "admin", the questions route
returns the stripped question list — records of type `StrippedQuestion`,
which has no `correctAnswer` and no `explanation` field at all — while an
admin caller receives the full `Question` records. -/
theorem questions_stripped_for_non_admin (s : Store) (userId themeId : Nat) (user : User)
    (huser : getUser s userId = some user) :
    (user.role ≠ "admin" →
      getThemeQuestionsRoute s userId themeId
        = QuestionsOutcome.okStripped ((getQuestionsByTheme s themeId).map stripQuestion))
    ∧ (user.role = "admin" →
      getThemeQuestionsRoute s userId themeId
        = QuestionsOutcome.okFull (getQuestionsByTheme s themeId)) := by
  constructor
  · intro hrole
    simp [getThemeQuestionsRoute, huser, hrole]
  · intro hrole
    simp [getThemeQuestionsRoute, huser, hrole]

/-- Witness for C5: in `c5Store`, the non-admin user 1 gets the stripped
list and the admin user 2 gets the full list. -/
theorem questions_stripped_for_non_admin_witness :
    getThemeQuestionsRoute c5Store 1 1
      = QuestionsOutcome.okStripped ((getQuestionsByTheme c5Store 1).map stripQuestion)
    ∧ getThemeQuestionsRoute c5Store 2 1
      = QuestionsOutcome.okFull (getQuestionsByTheme c5Store 1) := by
  constructor
  · exact (questions_stripped_for_non_admin c5Store 1 1 (mkUser 1 "user" 0) rfl).1 (by decide)
  · exact (questions_stripped_for_non_admin c5Store 2 1 (mkUser 2 "admin" 0) rfl).2 rfl

/-- Claim C6: in the global leaderboard, every entry's totalScore is the
sum of the `score` field over that user's sessions (the user's `points`
accumulator plays no part in the formula), and the list is sorted in
non-increasing order of totalScore. -/
theorem getGlobalLeaderboard_spec (s : Store) :
    (∀ e ∈ getGlobalLeaderboard s,
        e.totalScore = ((s.quizSessions.filter (fun sess => sess.userId == e.user.id)).map
            (fun sess => sess.score)).sum)
    ∧ List.Pairwise (fun a b : GlobalEntry => b.totalScore ≤ a.totalScore)
        (getGlobalLeaderboard s) := by
  constructor
  · intro e he
    have hmem : e ∈ s.users.map (fun u =>
        ({ user := u
           totalScore := ((s.quizSessions.filter (fun sess => sess.userId == u.id)).map
               (fun sess => sess.score)).sum } : GlobalEntry)) :=
      (List.mergeSort_perm _ _).mem_iff.mp he
    obtain ⟨u, _, rfl⟩ := List.mem_map.mp hmem
    rfl
  · have hs := @List.sorted_mergeSort GlobalEntry
      (fun a b => decide (b.totalScore ≤ a.totalScore))
      (by
        intro a b c h1 h2
        simp only [decide_eq_true_eq] at h1 h2 ⊢
        exact le_trans h2 h1)
      (by
        intro a b
        simp only [Bool.or_eq_true, decide_eq_true_eq]
        exact Int.le_total b.totalScore a.totalScore)
      (s.users.map (fun u =>
        ({ user := u
           totalScore := ((s.quizSessions.filter (fun sess => sess.userId == u.id)).map
               (fun sess => sess.score)).sum } : GlobalEntry)))
    exact hs.imp (fun h => of_decide_eq_true h)

/-- Witness for C6 on `c6Store`: the entry of user 2 is on the leaderboard
with totalScore 7 = the sum of that user's session scores, and the whole
leaderboard is sorted non-increasingly. -/
theorem getGlobalLeaderboard_spec_witness :
    c6Entry ∈ getGlobalLeaderboard c6Store
    ∧ c6Entry.totalScore
        = ((c6Store.quizSessions.filter (fun sess => sess.userId == c6Entry.user.id)).map
            (fun sess => sess.score)).sum
    ∧ List.Pairwise (fun a b : GlobalEntry => b.totalScore ≤ a.totalScore)
        (getGlobalLeaderboard c6Store) := by
  have hmem : c6Entry ∈ getGlobalLeaderboard c6Store := by
    apply (List.mergeSort_perm _ _).mem_iff.mpr
    decide
  exact ⟨hmem, (getGlobalLeaderboard_spec c6Store).1 c6Entry hmem,
    (getGlobalLeaderboard_spec c6Store).2⟩

/-! Helper lemmas about session storage and the frame of a submission. -/

lemma mem_setSession_self (sessions : List QuizSession) (sess : QuizSession) :
    sess ∈ setSession sessions sess := by
  induction sessions with
  | nil => simp [setSession]
  | cons s0 rest ih =>
      cases h : (s0.id == sess.id) with
      | true => simp [setSession, h]
      | false => simp [setSession, h, ih]

lemma setSession_eq_append (sessions : List QuizSession) (sess : QuizSession)
    (h : ∀ x ∈ sessions, x.id ≠ sess.id) :
    setSession sessions sess = sessions ++ [sess] := by
  induction sessions with
  | nil => simp [setSession]
  | cons s0 rest ih =>
      have h0 : (s0.id == sess.id) = false := by
        simpa using h s0 (List.mem_cons_self s0 rest)
      have hrest := ih (fun x hx => h x (List.mem_cons_of_mem s0 hx))
      simp [setSession, h0, hrest]

lemma setStat_filter_ne (stats : List UserStats) (st : UserStats) (userId themeId : Nat)
    (h1 : st.userId = userId) (h2 : st.themeId = themeId) :
    (setStat stats st).filter (fun x => !(x.userId == userId && x.themeId == themeId))
      = stats.filter (fun x => !(x.userId == userId && x.themeId == themeId)) := by
  subst h1 h2
  induction stats with
  | nil =>
      show List.filter _ [st] = List.filter _ []
      simp
  | cons st0 rest ih =>
      cases h : (st0.userId == st.userId && st0.themeId == st.themeId) with
      | true =>
          have e : setStat (st0 :: rest) st = st :: rest := by simp [setStat, h]
          rw [e, List.filter_cons, List.filter_cons]
          have hpst : (!(st.userId == st.userId && st.themeId == st.themeId)) = false := by
            simp
          have hpst0 : (!(st0.userId == st.userId && st0.themeId == st.themeId)) = false := by
            rw [h]
            rfl
          rw [hpst, hpst0]
          simp
      | false =>
          have e : setStat (st0 :: rest) st = st0 :: setStat rest st := by simp [setStat, h]
          rw [e, List.filter_cons, List.filter_cons, ih]

lemma updateUserStats_frame (s : Store) (userId themeId : Nat) (upd : StatsUpdate) :
    (updateUserStats s userId themeId upd).users = s.users
    ∧ (updateUserStats s userId themeId upd).themes = s.themes
    ∧ (updateUserStats s userId themeId upd).questions = s.questions
    ∧ (updateUserStats s userId themeId upd).quizSessions = s.quizSessions
    ∧ (updateUserStats s userId themeId upd).userStats.filter
          (fun x => !(x.userId == userId && x.themeId == themeId))
        = s.userStats.filter (fun x => !(x.userId == userId && x.themeId == themeId)) := by
  cases hfind : findStat s.userStats userId themeId with
  | none =>
      refine ⟨?_, ?_, ?_, ?_, ?_⟩ <;> simp only [updateUserStats, hfind]
      exact setStat_filter_ne s.userStats _ userId themeId rfl rfl
  | some existing =>
      have hpred := List.find?_some hfind
      simp only [Bool.and_eq_true, beq_iff_eq] at hpred
      refine ⟨?_, ?_, ?_, ?_, ?_⟩ <;> simp only [updateUserStats, hfind]
      exact setStat_filter_ne s.userStats _ userId themeId hpred.1 hpred.2

lemma updateUserStatsAfterQuiz_frame (s : Store) (sess : QuizSession) :
    (updateUserStatsAfterQuiz s sess).users = s.users
    ∧ (updateUserStatsAfterQuiz s sess).themes = s.themes
    ∧ (updateUserStatsAfterQuiz s sess).questions = s.questions
    ∧ (updateUserStatsAfterQuiz s sess).quizSessions = s.quizSessions
    ∧ (updateUserStatsAfterQuiz s sess).userStats.filter
          (fun x => !(x.userId == sess.userId && x.themeId == sess.themeId))
        = s.userStats.filter
            (fun x => !(x.userId == sess.userId && x.themeId == sess.themeId)) := by
  cases hfind : findStat s.userStats sess.userId sess.themeId with
  | none =>
      simp only [updateUserStatsAfterQuiz, hfind]
      exact updateUserStats_frame s sess.userId sess.themeId _
  | some existing =>
      simp only [updateUserStatsAfterQuiz, hfind]
      exact updateUserStats_frame s sess.userId sess.themeId _

lemma updateUserStatsAfterQuiz_row_exists (s : Store) (sess : QuizSession) :
    ∃ row, findStat (updateUserStatsAfterQuiz s sess).userStats sess.userId sess.themeId
      = some row := by
  cases hfind : findStat s.userStats sess.userId sess.themeId with
  | none =>
      obtain ⟨row, hrow, -, -, -, -⟩ := updateUserStats_row s sess.userId sess.themeId
        ⟨1, sess.score, sess.score, sess.timeSpent⟩
      exact ⟨row, by simp only [updateUserStatsAfterQuiz, hfind]; exact hrow⟩
  | some existing =>
      obtain ⟨row, hrow, -, -, -, -⟩ := updateUserStats_row s sess.userId sess.themeId
        ⟨existing.totalQuizzes + 1, max existing.bestScore sess.score,
          jsRound (existing.averageScore * (existing.totalQuizzes : Int) + sess.score)
            ((existing.totalQuizzes : Int) + 1),
          existing.totalTimeSpent + sess.timeSpent⟩
      exact ⟨row, by
        simp only [updateUserStatsAfterQuiz, hfind, Nat.cast_add, Nat.cast_one]
        exact hrow⟩

lemma getQuestionsByTheme_eq_nil_of_no_theme (s : Store) (themeId : Nat)
    (hfk : ∀ q ∈ s.questions, ∃ t ∈ s.themes, t.id = q.themeId)
    (hno : ∀ t ∈ s.themes, t.id ≠ themeId) :
    getQuestionsByTheme s themeId = [] := by
  unfold getQuestionsByTheme
  rw [List.filter_eq_nil_iff]
  intro q hq
  simp only [beq_iff_eq]
  intro heq
  obtain ⟨t, ht, hid⟩ := hfk q hq
  exact hno t ht (hid.trans heq)

/-- Claim C9: with a well-typed body (truthy themeId, answers object
present, numeric timeSpent), POST /api/quiz/submit never fails for a
themeId that references no existing theme, or a theme with no questions
(assuming the data-model invariant that every question's themeId references
an existing theme): it returns 200 with a session having score 0 and
totalQuestions 0, records that session, and creates/updates the
(user, theme) stats row — there is no NotFound path. -/
theorem submit_succeeds_without_theme (s : Store) (userId themeId : Nat)
    (answers : Nat → Option Int) (timeSpent : Int)
    (htid : themeId ≠ 0)
    (hfk : ∀ q ∈ s.questions, ∃ t ∈ s.themes, t.id = q.themeId)
    (hcase : (∀ t ∈ s.themes, t.id ≠ themeId)
      ∨ ((∃ t ∈ s.themes, t.id = themeId) ∧ getQuestionsByTheme s themeId = [])) :
    submitRoute s userId themeId true answers true timeSpent
      = ((submitQuiz s userId themeId answers timeSpent).1,
         SubmitOutcome.ok (submitQuiz s userId themeId answers timeSpent).2)
    ∧ (submitQuiz s userId themeId answers timeSpent).2.score = 0
    ∧ (submitQuiz s userId themeId answers timeSpent).2.totalQuestions = 0
    ∧ (submitQuiz s userId themeId answers timeSpent).2.session.score = 0
    ∧ (submitQuiz s userId themeId answers timeSpent).2.session.totalQuestions = 0
    ∧ (submitQuiz s userId themeId answers timeSpent).2.session.userId = userId
    ∧ (submitQuiz s userId themeId answers timeSpent).2.session.themeId = themeId
    ∧ (submitQuiz s userId themeId answers timeSpent).2.session
        ∈ (submitQuiz s userId themeId answers timeSpent).1.quizSessions
    ∧ (∃ row, findStat (submitQuiz s userId themeId answers timeSpent).1.userStats
        userId themeId = some row) := by
  have hnil : getQuestionsByTheme s themeId = [] := by
    rcases hcase with hno | ⟨-, hnil⟩
    · exact getQuestionsByTheme_eq_nil_of_no_theme s themeId hfk hno
    · exact hnil
  have htid' : (themeId == 0) = false := by simpa using htid
  refine ⟨?_, ?_, ?_, ?_, ?_, ?_, ?_, ?_, ?_⟩
  · simp [submitRoute, htid']
  · simp [submitQuiz, hnil, computeScore]
  · simp [submitQuiz, hnil]
  · simp [submitQuiz, createQuizSession, hnil, computeScore]
  · simp [submitQuiz, createQuizSession, hnil]
  · simp [submitQuiz, createQuizSession]
  · simp [submitQuiz, createQuizSession]
  · have hframe := updateUserStatsAfterQuiz_frame
      { s with
        quizSessions := setSession s.quizSessions
          { id := s.currentQuizSessionId, userId := userId, themeId := themeId,
            score := ((computeScore (getQuestionsByTheme s themeId) answers : Nat) : Int),
            totalQuestions := (getQuestionsByTheme s themeId).length,
            timeSpent := timeSpent }
        currentQuizSessionId := s.currentQuizSessionId + 1 }
      { id := s.currentQuizSessionId, userId := userId, themeId := themeId,
        score := ((computeScore (getQuestionsByTheme s themeId) answers : Nat) : Int),
        totalQuestions := (getQuestionsByTheme s themeId).length,
        timeSpent := timeSpent }
    have hsessions := hframe.2.2.2.1
    show (submitQuiz s userId themeId answers timeSpent).2.session
        ∈ (submitQuiz s userId themeId answers timeSpent).1.quizSessions
    simp only [submitQuiz, createQuizSession]
    rw [hsessions]
    exact mem_setSession_self s.quizSessions _
  · simpa only [submitQuiz, createQuizSession] using
      updateUserStatsAfterQuiz_row_exists
        { s with
          quizSessions := setSession s.quizSessions
            { id := s.currentQuizSessionId, userId := userId, themeId := themeId,
              score := ((computeScore (getQuestionsByTheme s themeId) answers : Nat) : Int),
              totalQuestions := (getQuestionsByTheme s themeId).length,
              timeSpent := timeSpent }
          currentQuizSessionId := s.currentQuizSessionId + 1 }
        { id := s.currentQuizSessionId, userId := userId, themeId := themeId,
          score := ((computeScore (getQuestionsByTheme s themeId) answers : Nat) : Int),
          totalQuestions := (getQuestionsByTheme s themeId).length,
          timeSpent := timeSpent }

/-- Witness for C9: submitting against the empty store (no themes, no
questions) with themeId 1 succeeds with a 0/0 session and a stats row. -/
theorem submit_succeeds_without_theme_witness :
    submitRoute emptyStore 1 1 true (fun _ => none) true 10
      = ((submitQuiz emptyStore 1 1 (fun _ => none) 10).1,
         SubmitOutcome.ok (submitQuiz emptyStore 1 1 (fun _ => none) 10).2)
    ∧ (submitQuiz emptyStore 1 1 (fun _ => none) 10).2.score = 0
    ∧ (submitQuiz emptyStore 1 1 (fun _ => none) 10).2.totalQuestions = 0
    ∧ (∃ row, findStat (submitQuiz emptyStore 1 1 (fun _ => none) 10).1.userStats 1 1
        = some row) := by
  have h := submit_succeeds_without_theme emptyStore 1 1 (fun _ => none) 10
    (by decide) (by simp [emptyStore]) (Or.inl (by simp [emptyStore]))
  exact ⟨h.1, h.2.1, h.2.2.1, h.2.2.2.2.2.2.2.2⟩

/-- Claim C10 (frame): a successful submission leaves users (hence points,
streaks, badges), themes and questions untouched, appends exactly one new
session with a fresh id to the session log, and changes at most the single
stats row keyed by the submitting (userId, themeId) pair; the hypothesis is
the store invariant that no stored session already uses the next session
id. -/
theorem submit_frame (s : Store) (userId themeId : Nat) (answers : Nat → Option Int)
    (timeSpent : Int)
    (hfresh : ∀ sess ∈ s.quizSessions, sess.id ≠ s.currentQuizSessionId) :
    (submitQuiz s userId themeId answers timeSpent).1.users = s.users
    ∧ (submitQuiz s userId themeId answers timeSpent).1.themes = s.themes
    ∧ (submitQuiz s userId themeId answers timeSpent).1.questions = s.questions
    ∧ (submitQuiz s userId themeId answers timeSpent).1.quizSessions
        = s.quizSessions ++ [(submitQuiz s userId themeId answers timeSpent).2.session]
    ∧ (submitQuiz s userId themeId answers timeSpent).2.session.id
        ∉ s.quizSessions.map (fun x => x.id)
    ∧ (submitQuiz s userId themeId answers timeSpent).1.userStats.filter
          (fun x => !(x.userId == userId && x.themeId == themeId))
        = s.userStats.filter (fun x => !(x.userId == userId && x.themeId == themeId)) := by
  have happ : setSession s.quizSessions
      { id := s.currentQuizSessionId, userId := userId, themeId := themeId,
        score := ((computeScore (getQuestionsByTheme s themeId) answers : Nat) : Int),
        totalQuestions := (getQuestionsByTheme s themeId).length,
        timeSpent := timeSpent }
      = s.quizSessions ++
        [{ id := s.currentQuizSessionId, userId := userId, themeId := themeId,
           score := ((computeScore (getQuestionsByTheme s themeId) answers : Nat) : Int),
           totalQuestions := (getQuestionsByTheme s themeId).length,
           timeSpent := timeSpent }] :=
    setSession_eq_append s.quizSessions _ (fun x hx => hfresh x hx)
  have hframe := updateUserStatsAfterQuiz_frame
    { s with
      quizSessions := setSession s.quizSessions
        { id := s.currentQuizSessionId, userId := userId, themeId := themeId,
          score := ((computeScore (getQuestionsByTheme s themeId) answers : Nat) : Int),
          totalQuestions := (getQuestionsByTheme s themeId).length,
          timeSpent := timeSpent }
      currentQuizSessionId := s.currentQuizSessionId + 1 }
    { id := s.currentQuizSessionId, userId := userId, themeId := themeId,
      score := ((computeScore (getQuestionsByTheme s themeId) answers : Nat) : Int),
      totalQuestions := (getQuestionsByTheme s themeId).length,
      timeSpent := timeSpent }
  refine ⟨?_, ?_, ?_, ?_, ?_, ?_⟩
  · simpa only [submitQuiz, createQuizSession] using hframe.1
  · simpa only [submitQuiz, createQuizSession] using hframe.2.1
  · simpa only [submitQuiz, createQuizSession] using hframe.2.2.1
  · show (submitQuiz s userId themeId answers timeSpent).1.quizSessions = _
    simp only [submitQuiz, createQuizSession]
    rw [hframe.2.2.2.1, happ]
  · intro hmem
    simp only [submitQuiz, createQuizSession, List.mem_map] at hmem
    obtain ⟨x, hx, hid⟩ := hmem
    exact hfresh x hx hid
  · simpa only [submitQuiz, createQuizSession] using hframe.2.2.2.2

/-- Witness for C10 on `c10Store`: user 1 submits theme 1; users, themes,
questions and the other user's stats row survive unchanged, and the session
log grows by the new session. -/
theorem submit_frame_witness :
    (submitQuiz c10Store 1 1 c3Answers 10).1.users = c10Store.users
    ∧ (submitQuiz c10Store 1 1 c3Answers 10).1.quizSessions
        = c10Store.quizSessions ++ [(submitQuiz c10Store 1 1 c3Answers 10).2.session]
    ∧ (submitQuiz c10Store 1 1 c3Answers 10).1.userStats.filter
          (fun x => !(x.userId == 1 && x.themeId == 1))
        = c10Store.userStats.filter (fun x => !(x.userId == 1 && x.themeId == 1)) := by
  have h := submit_frame c10Store 1 1 c3Answers 10 (by decide)
  exact ⟨h.1, h.2.2.2.1, h.2.2.2.2.2⟩

/-! Helper lemmas about the theme-leaderboard accumulator map. -/

lemma lookupBest_none_iff (acc : List ThemeEntry) (k : Nat) :
    lookupBest acc k = none ↔ ∀ e ∈ acc, e.user.id ≠ k := by
  unfold lookupBest
  rw [List.find?_eq_none]
  simp

lemma lookupBest_mem (acc : List ThemeEntry) (k : Nat) (e : ThemeEntry)
    (h : lookupBest acc k = some e) : e ∈ acc ∧ e.user.id = k := by
  refine ⟨List.mem_of_find?_eq_some h, ?_⟩
  simpa using List.find?_some h

lemma setBest_eq_append (acc : List ThemeEntry) (e : ThemeEntry)
    (h : ∀ x ∈ acc, x.user.id ≠ e.user.id) :
    setBest acc e = acc ++ [e] := by
  induction acc with
  | nil => simp [setBest]
  | cons e0 rest ih =>
      have h0 : (e0.user.id == e.user.id) = false := by
        simpa using h e0 (List.mem_cons_self e0 rest)
      have hrest := ih (fun x hx => h x (List.mem_cons_of_mem e0 hx))
      simp [setBest, h0, hrest]

lemma map_id_setBest_present (e : ThemeEntry) :
    ∀ (acc : List ThemeEntry) (cur : ThemeEntry),
      lookupBest acc e.user.id = some cur →
      (setBest acc e).map (fun x => x.user.id) = acc.map (fun x => x.user.id) := by
  intro acc
  induction acc with
  | nil => intro cur h; simp [lookupBest] at h
  | cons e0 rest ih =>
      intro cur h
      cases h0 : (e0.user.id == e.user.id) with
      | true =>
          have he0 : e0.user.id = e.user.id := by simpa using h0
          simp [setBest, h0, he0]
      | false =>
          have hrest : lookupBest rest e.user.id = some cur := by
            simpa [lookupBest, List.find?_cons, h0] using h
          simp [setBest, h0, ih cur hrest]

lemma mem_setBest (e : ThemeEntry) :
    ∀ (acc : List ThemeEntry), (acc.map (fun x => x.user.id)).Nodup →
      ∀ x, (x ∈ setBest acc e ↔ x = e ∨ (x ∈ acc ∧ x.user.id ≠ e.user.id)) := by
  intro acc
  induction acc with
  | nil => intro _ x; simp [setBest]
  | cons e0 rest ih =>
      intro hnd x
      simp only [List.map_cons, List.nodup_cons] at hnd
      cases h0 : (e0.user.id == e.user.id) with
      | true =>
          have he0 : e0.user.id = e.user.id := by simpa using h0
          have hsb : setBest (e0 :: rest) e = e :: rest := by simp [setBest, h0]
          rw [hsb]
          constructor
          · intro hx
            rcases List.mem_cons.mp hx with hx | hx
            · exact Or.inl hx
            · refine Or.inr ⟨List.mem_cons_of_mem e0 hx, ?_⟩
              intro hid
              exact hnd.1 (List.mem_map.mpr ⟨x, hx, by rw [hid, he0]⟩)
          · intro hx
            rcases hx with rfl | ⟨hmem, hne⟩
            · exact List.mem_cons_self _ _
            · rcases List.mem_cons.mp hmem with rfl | hmem'
              · exact absurd he0 hne
              · exact List.mem_cons_of_mem e hmem'
      | false =>
          have he0 : e0.user.id ≠ e.user.id := by simpa using h0
          have hsb : setBest (e0 :: rest) e = e0 :: setBest rest e := by simp [setBest, h0]
          rw [hsb]
          constructor
          · intro hx
            rcases List.mem_cons.mp hx with rfl | hx
            · exact Or.inr ⟨List.mem_cons_self _ _, he0⟩
            · rcases (ih hnd.2 x).mp hx with rfl | ⟨hmem, hne⟩
              · exact Or.inl rfl
              · exact Or.inr ⟨List.mem_cons_of_mem e0 hmem, hne⟩
          · intro hx
            rcases hx with rfl | ⟨hmem, hne⟩
            · exact List.mem_cons_of_mem e0 ((ih hnd.2 x).mpr (Or.inl rfl))
            · rcases List.mem_cons.mp hmem with rfl | hmem'
              · exact List.mem_cons_self _ _
              · exact List.mem_cons_of_mem e0 ((ih hnd.2 x).mpr (Or.inr ⟨hmem', hne⟩))

lemma nodup_setBest (acc : List ThemeEntry) (e : ThemeEntry)
    (hnd : (acc.map (fun x => x.user.id)).Nodup) :
    ((setBest acc e).map (fun x => x.user.id)).Nodup := by
  cases hl : lookupBest acc e.user.id with
  | some cur => rw [map_id_setBest_present e acc cur hl]; exact hnd
  | none =>
      have hno := (lookupBest_none_iff acc e.user.id).mp hl
      rw [setBest_eq_append acc e hno, List.map_append]
      rw [List.nodup_append]
      refine ⟨hnd, List.nodup_singleton _, ?_⟩
      intro k hk hk'
      simp only [List.map_cons, List.map_nil, List.mem_singleton] at hk'
      obtain ⟨x, hx, hid⟩ := List.mem_map.mp hk
      exact hno x hx (hid.trans hk')

lemma lookupBest_eq_of_mem (x : ThemeEntry) :
    ∀ (acc : List ThemeEntry), (acc.map (fun e => e.user.id)).Nodup →
      x ∈ acc → lookupBest acc x.user.id = some x := by
  intro acc
  induction acc with
  | nil => intro _ hx; simp at hx
  | cons e0 rest ih =>
      intro hnd hx
      simp only [List.map_cons, List.nodup_cons] at hnd
      rcases List.mem_cons.mp hx with rfl | hx'
      · simp [lookupBest, List.find?_cons]
      · have hne : (e0.user.id == x.user.id) = false := by
          simp only [beq_eq_false_iff_ne, ne_eq]
          intro heq
          exact hnd.1 (List.mem_map.mpr ⟨x, hx', heq.symm⟩)
        have := ih hnd.2 hx'
        simpa [lookupBest, List.find?_cons, hne] using this


lemma themeBestStep_inv (users : List User) (themeId : Nat) (pre : List QuizSession)
    (acc : List ThemeEntry) (sess : QuizSession)
    (h : ThemeAccInv users themeId pre acc) :
    ThemeAccInv users themeId (pre ++ [sess]) (themeBestStep users themeId acc sess) := by
  obtain ⟨h1, h2, h3⟩ := h
  cases hth : (sess.themeId == themeId) with
  | false =>
      have hthne : sess.themeId ≠ themeId := by simpa using hth
      have hstep : themeBestStep users themeId acc sess = acc := by
        simp [themeBestStep, hth]
      rw [hstep]
      refine ⟨?_, ?_, h3⟩
      · intro k hk
        rw [← h1 k hk]
        constructor
        · rintro ⟨s', hs', hq⟩
          rcases List.mem_append.mp hs' with hsL | hsR
          · exact ⟨s', hsL, hq⟩
          · rw [List.mem_singleton] at hsR
            exact absurd (hsR ▸ hq.1) hthne
        · rintro ⟨s', hs', hq⟩
          exact ⟨s', List.mem_append_left _ hs', hq⟩
      · intro e he
        obtain ⟨ha, hb, hc⟩ := h2 e he
        refine ⟨ha, ?_, ?_⟩
        · obtain ⟨s', hs', hq⟩ := hb
          exact ⟨s', List.mem_append_left _ hs', hq⟩
        · intro s' hs' hq1 hq2
          rcases List.mem_append.mp hs' with hsL | hsR
          · exact hc s' hsL hq1 hq2
          · rw [List.mem_singleton] at hsR
            exact absurd (hsR ▸ hq1) hthne
  | true =>
      have htheq : sess.themeId = themeId := by simpa using hth
      cases hfu : users.find? (fun u => u.id == sess.userId) with
      | none =>
          have hnouser : ∀ u ∈ users, u.id ≠ sess.userId := by
            have := List.find?_eq_none.mp hfu
            simpa using this
          have hstep : themeBestStep users themeId acc sess = acc := by
            simp [themeBestStep, hth, hfu]
          rw [hstep]
          refine ⟨?_, ?_, h3⟩
          · intro k hk
            rw [← h1 k hk]
            obtain ⟨u, hu, huk⟩ := hk
            constructor
            · rintro ⟨s', hs', hq⟩
              rcases List.mem_append.mp hs' with hsL | hsR
              · exact ⟨s', hsL, hq⟩
              · rw [List.mem_singleton] at hsR
                exact absurd (hsR ▸ (huk.trans hq.2.symm)) (hnouser u hu)
            · rintro ⟨s', hs', hq⟩
              exact ⟨s', List.mem_append_left _ hs', hq⟩
          · intro e he
            obtain ⟨ha, hb, hc⟩ := h2 e he
            refine ⟨ha, ?_, ?_⟩
            · obtain ⟨s', hs', hq⟩ := hb
              exact ⟨s', List.mem_append_left _ hs', hq⟩
            · intro s' hs' hq1 hq2
              rcases List.mem_append.mp hs' with hsL | hsR
              · exact hc s' hsL hq1 hq2
              · rw [List.mem_singleton] at hsR
                obtain ⟨u, hu, huk⟩ := ha
                exact absurd (hsR ▸ (huk.trans hq2.symm)) (hnouser u hu)
      | some user =>
          have huser : user ∈ users := List.mem_of_find?_eq_some hfu
          have huid : user.id = sess.userId := by simpa using List.find?_some hfu
          cases hlk : lookupBest acc user.id with
          | none =>
              have hno : ∀ x ∈ acc, x.user.id ≠ user.id :=
                (lookupBest_none_iff acc user.id).mp hlk
              have happ : setBest acc { user := user, bestScore := sess.score }
                  = acc ++ [{ user := user, bestScore := sess.score }] :=
                setBest_eq_append acc _ hno
              have hstep : themeBestStep users themeId acc sess
                  = acc ++ [{ user := user, bestScore := sess.score }] := by
                simp [themeBestStep, hth, hfu, hlk, happ]
              rw [hstep]
              have hnopre : ¬∃ s' ∈ pre, s'.themeId = themeId ∧ s'.userId = user.id := by
                intro hex
                obtain ⟨e, he, hid⟩ := (h1 user.id ⟨user, huser, rfl⟩).mp hex
                exact hno e he hid
              refine ⟨?_, ?_, ?_⟩
              · intro k hk
                constructor
                · rintro ⟨s', hs', hq⟩
                  rcases List.mem_append.mp hs' with hsL | hsR
                  · obtain ⟨e, he, hid⟩ := (h1 k hk).mp ⟨s', hsL, hq⟩
                    exact ⟨e, List.mem_append_left _ he, hid⟩
                  · rw [List.mem_singleton] at hsR
                    exact ⟨{ user := user, bestScore := sess.score },
                      List.mem_append_right _ (List.mem_singleton_self _),
                      huid.trans (hsR ▸ hq.2)⟩
                · rintro ⟨e, he, hid⟩
                  rcases List.mem_append.mp he with heL | heR
                  · obtain ⟨s', hs', hq⟩ := (h1 k hk).mpr ⟨e, heL, hid⟩
                    exact ⟨s', List.mem_append_left _ hs', hq⟩
                  · rw [List.mem_singleton] at heR
                    subst heR
                    exact ⟨sess, List.mem_append_right _ (List.mem_singleton_self _),
                      htheq, huid.symm.trans hid⟩
              · intro e he
                rcases List.mem_append.mp he with heL | heR
                · obtain ⟨ha, hb, hc⟩ := h2 e heL
                  refine ⟨ha, ?_, ?_⟩
                  · obtain ⟨s', hs', hq⟩ := hb
                    exact ⟨s', List.mem_append_left _ hs', hq⟩
                  · intro s' hs' hq1 hq2
                    rcases List.mem_append.mp hs' with hsL | hsR
                    · exact hc s' hsL hq1 hq2
                    · rw [List.mem_singleton] at hsR
                      exact absurd (((hsR ▸ hq2).symm).trans huid.symm) (hno e heL)
                · rw [List.mem_singleton] at heR
                  subst heR
                  refine ⟨⟨user, huser, rfl⟩, ?_, ?_⟩
                  · exact ⟨sess, List.mem_append_right _ (List.mem_singleton_self _),
                      htheq, huid.symm, rfl⟩
                  · intro s' hs' hq1 hq2
                    rcases List.mem_append.mp hs' with hsL | hsR
                    · exact absurd ⟨s', hsL, hq1, hq2⟩ hnopre
                    · rw [List.mem_singleton] at hsR
                      rw [hsR]
              · rw [List.map_append, List.nodup_append]
                refine ⟨h3, List.nodup_singleton _, ?_⟩
                intro k hk hk'
                simp only [List.map_cons, List.map_nil, List.mem_singleton] at hk'
                obtain ⟨x, hx, hid⟩ := List.mem_map.mp hk
                exact hno x hx (hid.trans hk')
          | some cur =>
              obtain ⟨hcur_mem, hcur_id⟩ := lookupBest_mem acc user.id cur hlk
              by_cases hcmp : cur.bestScore < sess.score
              · have hstep : themeBestStep users themeId acc sess
                    = setBest acc { user := user, bestScore := sess.score } := by
                  simp [themeBestStep, hth, hfu, hlk, hcmp]
                rw [hstep]
                have hids : (setBest acc { user := user, bestScore := sess.score }).map
                      (fun x => x.user.id) = acc.map (fun x => x.user.id) :=
                  map_id_setBest_present _ acc cur hlk
                have hmem := mem_setBest { user := user, bestScore := sess.score } acc h3
                refine ⟨?_, ?_, ?_⟩
                · intro k hk
                  constructor
                  · rintro ⟨s', hs', hq⟩
                    have hin : k ∈ acc.map (fun x => x.user.id) := by
                      rcases List.mem_append.mp hs' with hsL | hsR
                      · obtain ⟨e, he, hid⟩ := (h1 k hk).mp ⟨s', hsL, hq⟩
                        exact List.mem_map.mpr ⟨e, he, hid⟩
                      · rw [List.mem_singleton] at hsR
                        exact List.mem_map.mpr ⟨cur, hcur_mem,
                          hcur_id.trans (huid.trans (hsR ▸ hq.2))⟩
                    rw [← hids] at hin
                    obtain ⟨e', he', hid'⟩ := List.mem_map.mp hin
                    exact ⟨e', he', hid'⟩
                  · rintro ⟨e, he, hid⟩
                    have hin : k ∈ acc.map (fun x => x.user.id) := by
                      rw [← hids]
                      exact List.mem_map.mpr ⟨e, he, hid⟩
                    obtain ⟨e', he', hid'⟩ := List.mem_map.mp hin
                    obtain ⟨s', hs', hq⟩ := (h1 k hk).mpr ⟨e', he', hid'⟩
                    exact ⟨s', List.mem_append_left _ hs', hq⟩
                · intro e he
                  rcases (hmem e).mp he with rfl | ⟨hmemA, hne⟩
                  · refine ⟨⟨user, huser, rfl⟩, ?_, ?_⟩
                    · exact ⟨sess, List.mem_append_right _ (List.mem_singleton_self _),
                        htheq, huid.symm, rfl⟩
                    · intro s' hs' hq1 hq2
                      rcases List.mem_append.mp hs' with hsL | hsR
                      · have hle := (h2 cur hcur_mem).2.2 s' hsL hq1
                          (hq2.trans hcur_id.symm)
                        exact le_of_lt (lt_of_le_of_lt hle hcmp)
                      · rw [List.mem_singleton] at hsR
                        rw [hsR]
                  · obtain ⟨ha, hb, hc⟩ := h2 e hmemA
                    refine ⟨ha, ?_, ?_⟩
                    · obtain ⟨s', hs', hq⟩ := hb
                      exact ⟨s', List.mem_append_left _ hs', hq⟩
                    · intro s' hs' hq1 hq2
                      rcases List.mem_append.mp hs' with hsL | hsR
                      · exact hc s' hsL hq1 hq2
                      · rw [List.mem_singleton] at hsR
                        exact absurd (((hsR ▸ hq2).symm).trans huid.symm) hne
                · rw [hids]
                  exact h3
              · have hstep : themeBestStep users themeId acc sess = acc := by
                  simp [themeBestStep, hth, hfu, hlk, hcmp]
                rw [hstep]
                refine ⟨?_, ?_, h3⟩
                · intro k hk
                  constructor
                  · rintro ⟨s', hs', hq⟩
                    rcases List.mem_append.mp hs' with hsL | hsR
                    · exact (h1 k hk).mp ⟨s', hsL, hq⟩
                    · rw [List.mem_singleton] at hsR
                      exact ⟨cur, hcur_mem, hcur_id.trans (huid.trans (hsR ▸ hq.2))⟩
                  · rintro ⟨e, he, hid⟩
                    obtain ⟨s', hs', hq⟩ := (h1 k hk).mpr ⟨e, he, hid⟩
                    exact ⟨s', List.mem_append_left _ hs', hq⟩
                · intro e he
                  obtain ⟨ha, hb, hc⟩ := h2 e he
                  refine ⟨ha, ?_, ?_⟩
                  · obtain ⟨s', hs', hq⟩ := hb
                    exact ⟨s', List.mem_append_left _ hs', hq⟩
                  · intro s' hs' hq1 hq2
                    rcases List.mem_append.mp hs' with hsL | hsR
                    · exact hc s' hsL hq1 hq2
                    · rw [List.mem_singleton] at hsR
                      have hekey : e.user.id = user.id :=
                        ((hsR ▸ hq2).symm).trans huid.symm
                      have hlk2 : lookupBest acc e.user.id = some e :=
                        lookupBest_eq_of_mem e acc h3 he
                      rw [hekey] at hlk2
                      have hecur : e = cur := Option.some.inj (hlk2.symm.trans hlk)
                      rw [hsR, hecur]
                      exact not_lt.mp hcmp

lemma themeAccInv_nil (users : List User) (themeId : Nat) :
    ThemeAccInv users themeId [] [] := by
  refine ⟨?_, ?_, ?_⟩
  · intro k _
    simp
  · intro e he
    simp at he
  · simp

lemma themeBestFold_inv (users : List User) (themeId : Nat) :
    ∀ (rest pre : List QuizSession) (acc : List ThemeEntry),
      ThemeAccInv users themeId pre acc →
      ThemeAccInv users themeId (pre ++ rest) (themeBestFold users themeId rest acc) := by
  intro rest
  induction rest with
  | nil =>
      intro pre acc h
      simpa [themeBestFold] using h
  | cons sess rest ih =>
      intro pre acc h
      have hstep := themeBestStep_inv users themeId pre acc sess h
      have hrec := ih (pre ++ [sess]) (themeBestStep users themeId acc sess) hstep
      simpa [themeBestFold, List.append_assoc] using hrec

/-- Claim C7: the theme leaderboard contains exactly the stored users having
at least one session for the theme (each exactly once), every entry carries
that user's maximum session score for the theme (it is attained by a session
and bounds all of that user's sessions for the theme), and the list is
sorted in non-increasing order of bestScore. -/
theorem getThemeLeaderboard_spec (s : Store) (themeId : Nat) :
    (∀ u ∈ s.users,
        ((∃ sess ∈ s.quizSessions, sess.themeId = themeId ∧ sess.userId = u.id)
          ↔ ∃ e ∈ getThemeLeaderboard s themeId, e.user.id = u.id))
    ∧ (∀ e ∈ getThemeLeaderboard s themeId,
        (∃ sess ∈ s.quizSessions, sess.themeId = themeId ∧ sess.userId = e.user.id
            ∧ sess.score = e.bestScore)
        ∧ (∀ sess ∈ s.quizSessions, sess.themeId = themeId → sess.userId = e.user.id →
            sess.score ≤ e.bestScore))
    ∧ ((getThemeLeaderboard s themeId).map (fun e => e.user.id)).Nodup
    ∧ List.Pairwise (fun a b : ThemeEntry => b.bestScore ≤ a.bestScore)
        (getThemeLeaderboard s themeId) := by
  have hinv : ThemeAccInv s.users themeId s.quizSessions
      (themeBestFold s.users themeId s.quizSessions []) := by
    have := themeBestFold_inv s.users themeId s.quizSessions [] []
      (themeAccInv_nil s.users themeId)
    simpa using this
  obtain ⟨h1, h2, h3⟩ := hinv
  have hperm : (getThemeLeaderboard s themeId).Perm
      (themeBestFold s.users themeId s.quizSessions []) :=
    List.mergeSort_perm _ _
  refine ⟨?_, ?_, ?_, ?_⟩
  · intro u hu
    rw [h1 u.id ⟨u, hu, rfl⟩]
    constructor
    · rintro ⟨e, he, hid⟩
      exact ⟨e, hperm.mem_iff.mpr he, hid⟩
    · rintro ⟨e, he, hid⟩
      exact ⟨e, hperm.mem_iff.mp he, hid⟩
  · intro e he
    exact ⟨(h2 e (hperm.mem_iff.mp he)).2.1, (h2 e (hperm.mem_iff.mp he)).2.2⟩
  · exact (hperm.map (fun e => e.user.id)).symm.nodup h3
  · have hs := @List.sorted_mergeSort ThemeEntry
      (fun a b => decide (b.bestScore ≤ a.bestScore))
      (by
        intro a b c hab hbc
        simp only [decide_eq_true_eq] at hab hbc ⊢
        exact le_trans hbc hab)
      (by
        intro a b
        simp only [Bool.or_eq_true, decide_eq_true_eq]
        exact Int.le_total b.bestScore a.bestScore)
      (themeBestFold s.users themeId s.quizSessions [])
    exact hs.imp (fun h => of_decide_eq_true h)

/-- Witness for C7 on `c7Store`: user 1 has a qualifying session for theme
1 and accordingly appears on the theme-1 leaderboard; the leaderboard's
user ids are pairwise distinct and its bestScores are non-increasing. -/
theorem getThemeLeaderboard_spec_witness :
    ((∃ sess ∈ c7Store.quizSessions, sess.themeId = 1 ∧ sess.userId = 1)
      ↔ ∃ e ∈ getThemeLeaderboard c7Store 1, e.user.id = 1)
    ∧ ((getThemeLeaderboard c7Store 1).map (fun e => e.user.id)).Nodup
    ∧ List.Pairwise (fun a b : ThemeEntry => b.bestScore ≤ a.bestScore)
        (getThemeLeaderboard c7Store 1) := by
  have h := getThemeLeaderboard_spec c7Store 1
  exact ⟨h.1 (mkUser 1 "user" 0) (by decide), h.2.2.1, h.2.2.2⟩

end QuizMaster
